import Mathlib

/-!
Verification of the profile-picture generation pipeline (`app.py`).

The pipeline is embedded shallowly:
* pure arithmetic and control flow are translated directly;
* external capabilities (PIL image loading, LANCZOS resampling, font
  metrics and glyph rasterisation, face detection, JPEG encoding) are
  inputs of the pipeline, collected in an `Env` record, since the code
  delegates them wholesale to libraries;
* Python exceptions are modelled with `Except PyErr`;
* the Streamlit calls `st.warning` / `st.error` are modelled by counting
  how many of each a run emits (`RunResult.warnings`, `RunResult.errors`);
* PIL raster images are records of a width, a height, a mode and a pixel
  function; `float` text widths returned by `font.getlength` are modelled
  as integers (every claim proved below holds for an arbitrary measuring
  function, so the rationalisation loses nothing).
-/

/-- An RGBA pixel value (red, green, blue, alpha), each channel 0..255. -/
abbrev Pixel := Nat × Nat × Nat × Nat

/-- PIL image mode, as used by `app.py` (`'L'`, `'RGB'`, `'RGBA'`). -/
inductive PMode where
  | L : PMode
  | RGB : PMode
  | RGBA : PMode
deriving DecidableEq

/-- A PIL raster image: dimensions, mode and a total pixel function. -/
structure PilImage where
  width : Nat
  height : Nat
  mode : PMode
  px : Nat → Nat → Pixel

/-- A face rectangle `(top, right, bottom, left)` in source-pixel
coordinates, the format returned by `face_recognition.face_locations`. -/
abbrev FaceRect := Int × Int × Int × Int

/-- A resampling kernel (the external `Image.LANCZOS` filter): given the
source image and the target width and height it yields the pixel function
of the resized image. -/
abbrev Resample := PilImage → Nat → Nat → Nat → Nat → Pixel

/-- `Image.new(mode, (w, h), color)`. -/
def imageNew (w h : Nat) (mode : PMode) (color : Pixel) : PilImage :=
  { width := w, height := h, mode := mode, px := fun _ _ => color }

/-- `img.crop((l, t, r, b))`: the result has size `(r - l, b - t)`; pixels
outside the source are filled with zero, as PIL does for an out-of-bounds
crop box. -/
def crop (img : PilImage) (l t r b : Int) : PilImage :=
  { width := (r - l).toNat
    height := (b - t).toNat
    mode := img.mode
    px := fun x y =>
      if 0 ≤ l + x ∧ l + x < (img.width : Int) ∧ 0 ≤ t + y ∧ t + y < (img.height : Int) then
        img.px (l + x).toNat (t + y).toNat
      else (0, 0, 0, 0) }

/-- `img.resize((w, h), Image.LANCZOS)` with the kernel supplied as input. -/
def resize (kernel : Resample) (img : PilImage) (w h : Nat) : PilImage :=
  { width := w, height := h, mode := img.mode, px := kernel img w h }

/-- `img.convert('RGBA')`: identity on RGBA images, otherwise the alpha
channel is set fully on. -/
def toRGBA (img : PilImage) : PilImage :=
  if img.mode = PMode.RGBA then img
  else
    { img with
      mode := PMode.RGBA
      px := fun x y => ((img.px x y).1, (img.px x y).2.1, (img.px x y).2.2.1, 255) }

/-- `img.convert('RGB')`: the alpha channel is dropped. -/
def convertRGB (img : PilImage) : PilImage :=
  { img with
    mode := PMode.RGB
    px := fun x y => ((img.px x y).1, (img.px x y).2.1, (img.px x y).2.2.1, 255) }

/-- One channel of PIL mask compositing: base weighted by `255 - a`,
source by `a`. -/
def mix (b s a : Nat) : Nat := (b * (255 - a) + s * a) / 255

/-- Channel-wise mask compositing of two pixels. -/
def blendPx (b s : Pixel) (a : Nat) : Pixel :=
  (mix b.1 s.1 a, mix b.2.1 s.2.1 a, mix b.2.2.1 s.2.2.1 a, mix b.2.2.2 s.2.2.2 a)

/-- `base.paste(src, (ox, oy), mask)` with an `'L'`-mode mask given as an
alpha function over source coordinates. -/
def pasteMask (base src : PilImage) (ox oy : Nat) (mask : Nat → Nat → Nat) : PilImage :=
  { base with
    px := fun x y =>
      if ox ≤ x ∧ x < ox + src.width ∧ oy ≤ y ∧ y < oy + src.height then
        blendPx (base.px x y) (src.px (x - ox) (y - oy)) (mask (x - ox) (y - oy))
      else base.px x y }

/-- `base.paste(src, (ox, oy))` without a mask: source pixels replace base
pixels inside the pasted region. -/
def pasteFull (base src : PilImage) (ox oy : Nat) : PilImage :=
  { base with
    px := fun x y =>
      if ox ≤ x ∧ x < ox + src.width ∧ oy ≤ y ∧ y < oy + src.height then
        src.px (x - ox) (y - oy)
      else base.px x y }

/-- `frame.paste(cropped_img, (pos_x, pos_y), cropped_img if cropped_img.mode == 'RGBA' else None)`
(app.py line 115): an RGBA tile is pasted using its own alpha channel as
mask, any other tile is pasted directly. -/
def pasteTile (frame tile : PilImage) (ox oy : Nat) : PilImage :=
  if tile.mode = PMode.RGBA then
    pasteMask frame tile ox oy (fun x y => (tile.px x y).2.2.2)
  else pasteFull frame tile ox oy

/-- `draw.ellipse((0, 0, s, s), fill=255)` on an `s`-by-`s` `'L'` image
initialised to 0: the pixel at `(x, y)` (centre `(x + 1/2, y + 1/2)`,
written in doubled coordinates to stay in `Int`) is on exactly when its
centre lies inside the ellipse inscribed in the square. -/
def ellipseAlpha (s : Nat) (x y : Nat) : Nat :=
  if ((2 * x + 1 : Int) - s) ^ 2 + ((2 * y + 1 : Int) - s) ^ 2 ≤ (s : Int) ^ 2 then 255
  else 0

/-- `draw.rounded_rectangle((0, 0, s, s), radius=r, fill=255)`: a pixel is
on when its centre lies in the rounded square, that is in one of the two
central bands or within distance `r` of one of the four corner-arc
centres (doubled coordinates). -/
def roundedAlpha (s r : Nat) (x y : Nat) : Nat :=
  if (0 ≤ (2 * x + 1 : Int) ∧ (2 * x + 1 : Int) ≤ 2 * s ∧
      0 ≤ (2 * y + 1 : Int) ∧ (2 * y + 1 : Int) ≤ 2 * s) ∧
     (((2 * r : Int) ≤ 2 * x + 1 ∧ (2 * x + 1 : Int) ≤ 2 * s - 2 * r) ∨
      ((2 * r : Int) ≤ 2 * y + 1 ∧ (2 * y + 1 : Int) ≤ 2 * s - 2 * r) ∨
      ((2 * x + 1 : Int) - 2 * r) ^ 2 + ((2 * y + 1 : Int) - 2 * r) ^ 2 ≤ (2 * r : Int) ^ 2 ∨
      ((2 * x + 1 : Int) - (2 * s - 2 * r)) ^ 2 + ((2 * y + 1 : Int) - 2 * r) ^ 2 ≤ (2 * r : Int) ^ 2 ∨
      ((2 * x + 1 : Int) - 2 * r) ^ 2 + ((2 * y + 1 : Int) - (2 * s - 2 * r)) ^ 2 ≤ (2 * r : Int) ^ 2 ∨
      ((2 * x + 1 : Int) - (2 * s - 2 * r)) ^ 2 + ((2 * y + 1 : Int) - (2 * s - 2 * r)) ^ 2 ≤ (2 * r : Int) ^ 2)
  then 255 else 0

/-- The mask drawn at app.py lines 88-94: a full ellipse when
`border_radius >= cropped_size // 2`, else a rounded rectangle. -/
def maskAlpha (croppedSize borderRadius : Nat) : Nat → Nat → Nat :=
  if croppedSize / 2 ≤ borderRadius then ellipseAlpha croppedSize
  else roundedAlpha croppedSize borderRadius

/-- app.py lines 86-105: when `border_radius > 0`, build the mask, make a
fully transparent RGBA image of the tile's size, and paste the (RGBA
converted) tile through the mask; otherwise leave the tile untouched. -/
def applyBorderRadius (croppedImg : PilImage) (croppedSize borderRadius : Nat) : PilImage :=
  if 0 < borderRadius then
    pasteMask (imageNew croppedImg.width croppedImg.height PMode.RGBA (0, 0, 0, 0))
      (toRGBA croppedImg) 0 0 (maskAlpha croppedSize borderRadius)
  else croppedImg

/-- app.py lines 60-73: the crop rectangle `(left, top, right, bottom)`
computed from a face rectangle `(top, right, bottom, left)`. Python's
floor division `//` is `Int.fdiv`. -/
def cropRect (face : FaceRect) (bboxSize padding : Int) : Int × Int × Int × Int :=
  let faceCenterX := (face.2.2.2 + face.2.1).fdiv 2
  let faceCenterY := (face.1 + face.2.2.1).fdiv 2
  let halfBbox := bboxSize.fdiv 2
  (max 0 (faceCenterX - halfBbox - padding),
   max 0 (faceCenterY - halfBbox - padding),
   faceCenterX + halfBbox + padding,
   faceCenterY + halfBbox + padding)

/-- A loaded font: `getlength` text measuring (integer pixels) and glyph
coverage used when the text is rasterised onto the canvas. -/
structure Font where
  len : String → Int
  cover : String → Int → Int → Bool

/-- Python exception values that the pipeline distinguishes. -/
inductive PyErr where
  | ioError : PyErr
  | indexError : PyErr
  | generic : PyErr
deriving DecidableEq

/-- `text.split()` on a character list: split at runs of whitespace,
dropping empty pieces, accumulating the current word reversed. -/
def wordsAux : List Char → List Char → List (List Char)
  | [], cur => if cur = [] then [] else [cur.reverse]
  | c :: rest, cur =>
      if c.isWhitespace then
        if cur = [] then wordsAux rest [] else cur.reverse :: wordsAux rest []
      else wordsAux rest (c :: cur)

/-- Python `text.split()` (no separator argument). -/
def pySplit (s : String) : List String :=
  (wordsAux s.data []).map (fun w => String.mk w)

/-- The loop of `get_wrapped_text` (app.py lines 136-147): greedily extend
`current_line` with the next word while the measured test line fits,
otherwise flush `current_line`; the last current line is appended at the
end. -/
def wrapLoop (font : Font) (maxWidth : Int) : String → List String → List String
  | currentLine, [] => [currentLine]
  | currentLine, word :: rest =>
      if font.len (currentLine ++ " " ++ word) ≤ maxWidth then
        wrapLoop font maxWidth (currentLine ++ " " ++ word) rest
      else currentLine :: wrapLoop font maxWidth word rest

/-- `get_wrapped_text(text, font, max_width)` (app.py lines 131-148).
`current_line = words[0]` raises `IndexError` when `text.split()` is
empty. -/
def get_wrapped_text (text : String) (font : Font) (maxWidth : Int) :
    Except PyErr (List String) :=
  match pySplit text with
  | [] => Except.error PyErr.indexError
  | w :: ws => Except.ok (wrapLoop font maxWidth w ws)

/-- Joining strings with single spaces (used to state content
preservation of the word wrap). -/
def sjoin : List String → String
  | [] => ""
  | [s] => s
  | s :: t :: rest => s ++ " " ++ sjoin (t :: rest)

/-- The external effects consumed when processing one image: the opened
source image, the face detector's answer, the font loader, the resampling
kernel and the JPEG encoder. Each fallible capability is an `Except`. -/
structure Env where
  srcImage : Except PyErr PilImage
  faceLocations : Except PyErr (List FaceRect)
  truetype : Except PyErr Font
  defaultFont : Font
  resample : Resample
  encodeJpeg : PilImage → Nat → Except PyErr (List Nat)

/-- `get_face_location` (app.py lines 33-46): first detected face, `none`
when the detector finds no face; loading or detection may raise. -/
def get_face_location (env : Env) : Except PyErr (Option FaceRect) :=
  match env.faceLocations with
  | Except.error e => Except.error e
  | Except.ok [] => Except.ok none
  | Except.ok (f :: _) => Except.ok (some f)

/-- app.py lines 121-125: `ImageFont.truetype` guarded by
`except IOError`, falling back to `ImageFont.load_default()`; any other
exception propagates to the outer handler. -/
def resolveFont (env : Env) : Except PyErr Font :=
  match env.truetype with
  | Except.ok f => Except.ok f
  | Except.error PyErr.ioError => Except.ok env.defaultFont
  | Except.error e => Except.error e

/-- The shape of the run's configuration sliders (app.py lines 206-230),
passed to `process_image`. -/
structure Config where
  bboxSize : Int
  padding : Int
  frameSize : Nat × Nat
  fontSize : Nat
  borderRadius : Nat
  textColor : Pixel
  alignCenter : Bool
  topPadding : Nat
  quality : Nat

/-- app.py lines 60-115: crop to the face box, resize to a
`frame_width`-sided square, optionally round the corners, and paste the
tile onto a fresh white RGBA canvas of the configured frame size,
horizontally centred at vertical offset `top_padding`. -/
def buildFrame (resample : Resample) (cfg : Config) (img : PilImage) (face : FaceRect) :
    PilImage :=
  let c := cropRect face cfg.bboxSize cfg.padding
  let croppedImg := crop img c.1 c.2.1 c.2.2.1 c.2.2.2
  let croppedSize := min cfg.frameSize.1 cfg.frameSize.1
  let resizedImg := resize resample croppedImg croppedSize croppedSize
  let tile := applyBorderRadius resizedImg croppedSize cfg.borderRadius
  let frame := imageNew cfg.frameSize.1 cfg.frameSize.2 PMode.RGBA (255, 255, 255, 255)
  let posX := (cfg.frameSize.1 - croppedSize) / 2
  pasteTile frame tile posX cfg.topPadding

/-- `draw.text((text_x, text_y + i*(font_size + 5)), line, ...)` for the
line numbered `p.1` (app.py lines 154-161): centred or at fixed x = 10. -/
def drawStep (font : Font) (cfg : Config) (textY : Nat) (fr : PilImage) (p : Nat × String) :
    PilImage :=
  let textX : Int :=
    if cfg.alignCenter then ((cfg.frameSize.1 : Int) - font.len p.2).fdiv 2 else 10
  { fr with
    px := fun x y =>
      if font.cover p.2 ((x : Int) - textX) ((y : Int) - ((textY + p.1 * (cfg.fontSize + 5) : Nat) : Int))
      then cfg.textColor
      else fr.px x y }

/-- The text drawing loop over the enumerated wrapped lines. -/
def drawLines (fr : PilImage) (font : Font) (cfg : Config) (lines : List String)
    (textY : Nat) : PilImage :=
  lines.enum.foldl (drawStep font cfg textY) fr

/-- The composited canvas of one image, from the opened source image and
detected face to the RGB flatten of app.py line 164 (everything of
`process_image` except the fallible externals). -/
def canvasOf (resample : Resample) (cfg : Config) (img : PilImage) (face : FaceRect)
    (font : Font) (wrapped : List String) : PilImage :=
  convertRGB
    (drawLines (buildFrame resample cfg img face) font cfg wrapped
      (cfg.topPadding + min cfg.frameSize.1 cfg.frameSize.1 + 10))

/-- The body of `process_image` (app.py lines 51-171), before the
`except` handler: detect the face (`none` means the no-face skip), open
the image, resolve the font, wrap the name, composite the canvas, encode
it. Raising anywhere yields `Except.error`. -/
def processImageBody (env : Env) (cfg : Config) (name : String) :
    Except PyErr (Option (PilImage × List Nat)) :=
  match get_face_location env with
  | Except.error e => Except.error e
  | Except.ok none => Except.ok none
  | Except.ok (some face) =>
      match env.srcImage with
      | Except.error e => Except.error e
      | Except.ok img =>
          match resolveFont env with
          | Except.error e => Except.error e
          | Except.ok font =>
              match get_wrapped_text name font ((cfg.frameSize.1 : Int) - 20) with
              | Except.error e => Except.error e
              | Except.ok wrapped =>
                  let frameRGB := canvasOf env.resample cfg img face font wrapped
                  match env.encodeJpeg frameRGB cfg.quality with
                  | Except.error e => Except.error e
                  | Except.ok jpeg => Except.ok (some (frameRGB, jpeg))

/-- Observable outcome of `process_image`: the returned JPEG buffer (or
`None`) and how many `st.warning` / `st.error` messages the call emitted. -/
structure RunResult where
  output : Option (List Nat)
  warnings : Nat
  errors : Nat
deriving DecidableEq

/-- `process_image` (app.py lines 48-175): a no-face detection emits one
warning and returns `None`; a raised exception is caught by the handler
at lines 173-175, which emits one error message and returns `None`. -/
def process_image (env : Env) (cfg : Config) (name : String) : RunResult :=
  match processImageBody env cfg name with
  | Except.ok (some r) => { output := some r.2, warnings := 0, errors := 0 }
  | Except.ok none => { output := none, warnings := 1, errors := 0 }
  | Except.error _ => { output := none, warnings := 0, errors := 1 }

/-- Python `f"{n:02d}"` for a non-negative `n`: zero-padded to width two. -/
def fmt2 (n : Nat) : String :=
  if n < 10 then "0" ++ toString n else toString n

/-- The batch loop of `main` (app.py lines 362-392), with `i` the index
of the first remaining item: a successful image appends the archive entry
`f"{i+1:02d}.jpg"` and bumps `processed_count`; a failed one appends
nothing. Returns the archive entries and the processed count. -/
def batchGo (cfg : Config) : Nat → List (Env × String) → List (String × List Nat) × Nat
  | _, [] => ([], 0)
  | i, item :: rest =>
      let restRes := batchGo cfg (i + 1) rest
      match (process_image item.1 cfg item.2).output with
      | some jpg => ((fmt2 (i + 1) ++ ".jpg", jpg) :: restRes.1, restRes.2 + 1)
      | none => restRes

/-- "Process All Images" (app.py lines 351-394): pair the images with the
names (`total_images = min(...)` is the zip), run the loop from index 0,
and produce the final status line of line 394. -/
def batchProcess (cfg : Config) (envs : List Env) (names : List String) :
    List (String × List Nat) × Nat × String :=
  let totalImages := min envs.length names.length
  let res := batchGo cfg 0 (envs.zip names)
  (res.1, res.2,
   "Processing complete! " ++ toString res.2 ++ "/" ++ toString totalImages ++
     " images processed.")

/-- A concrete font for witness runs: text width is the character count,
no glyph coverage. -/
def font0 : Font :=
  { len := fun s => (s.length : Int), cover := fun _ _ _ => false }

/-- A concrete resampling kernel for witness runs. -/
def res0 : Resample := fun _ _ _ _ _ => (0, 0, 0, 0)

/-- A concrete 100-by-100 source image for witness runs. -/
def img0 : PilImage :=
  { width := 100, height := 100, mode := PMode.RGB, px := fun _ _ => (5, 5, 5, 255) }

/-- A concrete 8-by-8 tile for the border-radius witness. -/
def img1 : PilImage :=
  { width := 8, height := 8, mode := PMode.RGB, px := fun _ _ => (9, 9, 9, 255) }

/-- The configuration used by witness runs (the slider defaults of
app.py lines 206-230). -/
def cfg0 : Config :=
  { bboxSize := 40, padding := 40, frameSize := (100, 160), fontSize := 16,
    borderRadius := 0, textColor := (0, 0, 0, 255), alignCenter := true,
    topPadding := 10, quality := 90 }

/-- A witness environment in which every capability succeeds. -/
def envA : Env :=
  { srcImage := Except.ok img0
    faceLocations := Except.ok [(10, 60, 70, 20)]
    truetype := Except.ok font0
    defaultFont := font0
    resample := res0
    encodeJpeg := fun _ _ => Except.ok [1, 2, 3] }

/-- A witness environment in which opening the source image raises. -/
def envErr : Env :=
  { srcImage := Except.error PyErr.generic
    faceLocations := Except.ok [(10, 60, 70, 20)]
    truetype := Except.ok font0
    defaultFont := font0
    resample := res0
    encodeJpeg := fun _ _ => Except.ok [1, 2, 3] }

/-- A witness environment in which the detector finds no face. -/
def envNoFace : Env :=
  { srcImage := Except.ok img0
    faceLocations := Except.ok []
    truetype := Except.ok font0
    defaultFont := font0
    resample := res0
    encodeJpeg := fun _ _ => Except.ok [1, 2, 3] }

/-- C1: `process_image` computes the crop rectangle from the detected
face rectangle as: centre = integer midpoints of the face edges,
half-extent = `bbox_size // 2 + padding`, left and top clamped at 0, right
and bottom unclamped — so a face near the right or bottom border of an
undersized source yields a crop extending past the image bounds
(exhibited by the second conjunct). -/
theorem crop_rect_spec :
    (∀ top right bottom left bboxSize padding : Int,
       cropRect (top, right, bottom, left) bboxSize padding =
         (max 0 ((left + right).fdiv 2 - (bboxSize.fdiv 2 + padding)),
          max 0 ((top + bottom).fdiv 2 - (bboxSize.fdiv 2 + padding)),
          (left + right).fdiv 2 + (bboxSize.fdiv 2 + padding),
          (top + bottom).fdiv 2 + (bboxSize.fdiv 2 + padding))) ∧
    (∃ top right bottom left bboxSize padding imgWidth : Int,
       0 ≤ left ∧ right ≤ imgWidth ∧
         imgWidth < (cropRect (top, right, bottom, left) bboxSize padding).2.2.1) := by
  constructor
  · intro top right bottom left bboxSize padding
    simp [cropRect, sub_sub, add_assoc]
  · exact ⟨0, 100, 100, 60, 40, 40, 100, by decide, by decide, by decide⟩

/-- Invariant of the greedy wrap loop: if the running line either fits or
is one of the designated words, and every pending word is designated,
then every produced line either fits or is a designated word. -/
theorem wrapLoop_mem_pred (font : Font) (maxWidth : Int) (allW : List String) :
    ∀ (ws : List String) (c : String),
      (font.len c ≤ maxWidth ∨ c ∈ allW) → (∀ w ∈ ws, w ∈ allW) →
      ∀ l ∈ wrapLoop font maxWidth c ws, font.len l ≤ maxWidth ∨ l ∈ allW := by
  intro ws
  induction ws with
  | nil =>
      intro c hc _ l hl
      simp only [wrapLoop, List.mem_singleton] at hl
      exact hl ▸ hc
  | cons w ws ih =>
      intro c hc hws l hl
      simp only [wrapLoop] at hl
      by_cases hfit : font.len (c ++ " " ++ w) ≤ maxWidth
      · rw [if_pos hfit] at hl
        exact ih (c ++ " " ++ w) (Or.inl hfit)
          (fun u hu => hws u (List.mem_cons_of_mem _ hu)) l hl
      · rw [if_neg hfit] at hl
        rcases List.mem_cons.mp hl with h | h
        · exact h ▸ hc
        · exact ih w (Or.inr (hws w (List.mem_cons_self _ _)))
            (fun u hu => hws u (List.mem_cons_of_mem _ hu)) l h

/-- C2: every line produced by the word wrap at maximum width
`frame width - 20` either measures at most `frame width - 20`, or is one
of the whitespace-split words of the name, taken whole — a single word is
never split, and a line holding two or more words always fits. -/
theorem wrap_width_bound (font : Font) (frameW : Int) (name : String)
    (lines : List String) (line : String)
    (h : get_wrapped_text name font (frameW - 20) = Except.ok lines)
    (hmem : line ∈ lines) :
    font.len line ≤ frameW - 20 ∨ line ∈ pySplit name := by
  unfold get_wrapped_text at h
  cases hsplit : pySplit name with
  | nil => rw [hsplit] at h; cases h
  | cons w ws =>
      rw [hsplit] at h
      injection h with h
      subst h
      refine wrapLoop_mem_pred font (frameW - 20) (w :: ws) ws w ?_ ?_ line hmem
      · exact Or.inr (List.mem_cons_self _ _)
      · intro u hu; exact List.mem_cons_of_mem _ hu

/-- Witness for `wrap_width_bound`: with a character-count font and
maximum width 10, the name splits into a line that is a single unsplit
word longer than the maximum. -/
theorem wrap_width_bound_witness :
    get_wrapped_text ("Extraordinary Man") font0 ((30 : Int) - 20) =
        Except.ok ["Extraordinary", "Man"] ∧
      ("Extraordinary") ∈ (["Extraordinary", "Man"] : List String) ∧
      (font0.len ("Extraordinary") ≤ (30 : Int) - 20 ∨
        ("Extraordinary") ∈ pySplit ("Extraordinary Man")) :=
  ⟨rfl, List.mem_cons_self _ _,
   wrap_width_bound font0 30 ("Extraordinary Man") ["Extraordinary", "Man"]
     ("Extraordinary") rfl (List.mem_cons_self _ _)⟩

/-- `sjoin` after prepending a space-joined pair is `sjoin` of the pair
consed on. -/
theorem sjoin_glue (a b : String) (l : List String) :
    sjoin ((a ++ " " ++ b) :: l) = a ++ " " ++ sjoin (b :: l) := by
  cases l with
  | nil => rfl
  | cons c cs => simp only [sjoin, String.append_assoc]

/-- The wrap loop never returns an empty list of lines. -/
theorem wrapLoop_ne_nil (font : Font) (maxWidth : Int) :
    ∀ (ws : List String) (c : String), wrapLoop font maxWidth c ws ≠ [] := by
  intro ws
  induction ws with
  | nil => intro c; simp [wrapLoop]
  | cons w ws ih =>
      intro c
      simp only [wrapLoop]
      split
      · exact ih _
      · simp

/-- The wrap loop preserves the space-joined content of its input. -/
theorem wrapLoop_sjoin (font : Font) (maxWidth : Int) :
    ∀ (ws : List String) (c : String),
      sjoin (wrapLoop font maxWidth c ws) = sjoin (c :: ws) := by
  intro ws
  induction ws with
  | nil => intro c; rfl
  | cons w ws ih =>
      intro c
      simp only [wrapLoop]
      split
      · rw [ih (c ++ " " ++ w), sjoin_glue]; rfl
      · cases hW : wrapLoop font maxWidth w ws with
        | nil => exact absurd hW (wrapLoop_ne_nil font maxWidth ws w)
        | cons l0 ls =>
            have hglue : sjoin (c :: l0 :: ls) = c ++ " " ++ sjoin (l0 :: ls) := rfl
            rw [hglue, ← hW, ih w]; rfl

/-- Gluing a word onto a line with a space never yields the empty string. -/
theorem append_space_ne_empty (c w : String) : c ++ " " ++ w ≠ "" := by
  intro h
  have hlen := congrArg String.length h
  rw [String.length_append, String.length_append] at hlen
  have hsp : (" " : String).length = 1 := rfl
  have hz : ("" : String).length = 0 := rfl
  omega

/-- Every line the wrap loop produces is non-empty, provided the running
line and all pending words are. -/
theorem wrapLoop_ne_empty (font : Font) (maxWidth : Int) :
    ∀ (ws : List String) (c : String), c ≠ "" → (∀ w ∈ ws, w ≠ "") →
      ∀ l ∈ wrapLoop font maxWidth c ws, l ≠ "" := by
  intro ws
  induction ws with
  | nil =>
      intro c hc _ l hl
      simp only [wrapLoop, List.mem_singleton] at hl
      exact hl ▸ hc
  | cons w ws ih =>
      intro c hc hws l hl
      simp only [wrapLoop] at hl
      split at hl
      · exact ih (c ++ " " ++ w) (append_space_ne_empty c w)
          (fun u hu => hws u (List.mem_cons_of_mem _ hu)) l hl
      · rcases List.mem_cons.mp hl with h | h
        · exact h ▸ hc
        · exact ih w (hws w (List.mem_cons_self _ _))
            (fun u hu => hws u (List.mem_cons_of_mem _ hu)) l h

/-- Every word produced by the whitespace splitter is a non-empty
character list. -/
theorem wordsAux_ne_nil :
    ∀ (cs cur : List Char), ∀ w ∈ wordsAux cs cur, w ≠ [] := by
  intro cs
  induction cs with
  | nil =>
      intro cur w hw
      simp only [wordsAux] at hw
      split at hw
      · cases hw
      · rename_i hcur
        rw [List.mem_singleton] at hw
        subst hw
        simpa [List.reverse_eq_nil_iff] using hcur
  | cons c cs ih =>
      intro cur w hw
      simp only [wordsAux] at hw
      split at hw
      · split at hw
        · exact ih [] w hw
        · rename_i hcur
          rcases List.mem_cons.mp hw with h | h
          · subst h; simpa [List.reverse_eq_nil_iff] using hcur
          · exact ih [] w h
      · exact ih (c :: cur) w hw

/-- Every word of `pySplit` is a non-empty string. -/
theorem pySplit_ne_empty (s : String) : ∀ w ∈ pySplit s, w ≠ "" := by
  intro w hw
  unfold pySplit at hw
  rcases List.mem_map.mp hw with ⟨l, hl, rfl⟩
  intro he
  exact wordsAux_ne_nil s.data [] l hl (congrArg String.data he)

/-- C10: the greedy word wrap is content preserving — joining the
returned lines with single spaces equals joining the whitespace-split
words of the name with single spaces (no word dropped, duplicated, split
or reordered), and no returned line is empty. -/
theorem wrap_content (font : Font) (maxWidth : Int) (name : String)
    (lines : List String)
    (h : get_wrapped_text name font maxWidth = Except.ok lines) :
    sjoin lines = sjoin (pySplit name) ∧ ("" : String) ∉ lines := by
  unfold get_wrapped_text at h
  cases hsplit : pySplit name with
  | nil => rw [hsplit] at h; cases h
  | cons w ws =>
      rw [hsplit] at h
      injection h with h
      subst h
      constructor
      · exact wrapLoop_sjoin font maxWidth ws w
      · intro hmem
        refine wrapLoop_ne_empty font maxWidth ws w ?_ ?_ ("" : String) hmem rfl
        · exact pySplit_ne_empty name w (by rw [hsplit]; exact List.mem_cons_self _ _)
        · intro u hu
          exact pySplit_ne_empty name u (by rw [hsplit]; exact List.mem_cons_of_mem _ hu)

/-- Witness for `wrap_content` at a two-word name with character-count
measuring. -/
theorem wrap_content_witness :
    get_wrapped_text ("John Doe") font0 10 = Except.ok ["John Doe"] ∧
      (sjoin ["John Doe"] = sjoin (pySplit ("John Doe")) ∧
        ("" : String) ∉ (["John Doe"] : List String)) :=
  ⟨rfl, wrap_content font0 10 ("John Doe") ["John Doe"] rfl⟩

/-- C9: when the name has no words (empty or whitespace-only), even with
a detected face, an opened image and a resolved font, the body of
`process_image` raises `IndexError` at `words[0]`; the per-image handler
catches it, reports one error, and the call returns `None`. -/
theorem empty_name_error (env : Env) (cfg : Config) (name : String)
    (face : FaceRect) (fs : List FaceRect) (img : PilImage) (font : Font)
    (hface : env.faceLocations = Except.ok (face :: fs))
    (himg : env.srcImage = Except.ok img)
    (hfont : resolveFont env = Except.ok font)
    (hname : pySplit name = []) :
    processImageBody env cfg name = Except.error PyErr.indexError ∧
      process_image env cfg name = { output := none, warnings := 0, errors := 1 } := by
  have hbody : processImageBody env cfg name = Except.error PyErr.indexError := by
    unfold processImageBody get_face_location get_wrapped_text
    rw [hface, himg, hfont, hname]
  refine ⟨hbody, ?_⟩
  unfold process_image
  rw [hbody]

/-- Witness for `empty_name_error` at the all-capabilities-succeed
environment and the empty name. -/
theorem empty_name_error_witness :
    pySplit ("") = [] ∧
      (processImageBody envA cfg0 ("") = Except.error PyErr.indexError ∧
        process_image envA cfg0 ("") = { output := none, warnings := 0, errors := 1 }) :=
  ⟨rfl, empty_name_error envA cfg0 ("") (10, 60, 70, 20) [] img0 font0 rfl rfl rfl rfl⟩

/-- C4: when the face locator reports no face, the body of
`process_image` takes the ordinary `None` return (not the exception
path), and the call emits exactly one warning, no error, and produces no
artifact. -/
theorem no_face_warning (env : Env) (cfg : Config) (name : String)
    (h : env.faceLocations = Except.ok []) :
    processImageBody env cfg name = Except.ok none ∧
      process_image env cfg name = { output := none, warnings := 1, errors := 0 } := by
  have hbody : processImageBody env cfg name = Except.ok none := by
    unfold processImageBody get_face_location
    rw [h]
  refine ⟨hbody, ?_⟩
  unfold process_image
  rw [hbody]

/-- Witness for `no_face_warning` at the empty-detection environment. -/
theorem no_face_warning_witness :
    envNoFace.faceLocations = Except.ok [] ∧
      (processImageBody envNoFace cfg0 ("Ann") = Except.ok none ∧
        process_image envNoFace cfg0 ("Ann") =
          { output := none, warnings := 1, errors := 0 }) :=
  ⟨rfl, no_face_warning envNoFace cfg0 ("Ann") rfl⟩

/-- Unfolding equation of the batch loop at a cons cell. -/
theorem batchGo_cons (cfg : Config) (i : Nat) (item : Env × String)
    (rest : List (Env × String)) :
    batchGo cfg i (item :: rest) =
      match (process_image item.1 cfg item.2).output with
      | some jpg =>
          ((fmt2 (i + 1) ++ ".jpg", jpg) :: (batchGo cfg (i + 1) rest).1,
           (batchGo cfg (i + 1) rest).2 + 1)
      | none => batchGo cfg (i + 1) rest := rfl

/-- The batch loop over a concatenation: entries concatenate and counts
add, with the second part numbered after the first. -/
theorem batchGo_append (cfg : Config) :
    ∀ (pre : List (Env × String)) (i : Nat) (rest : List (Env × String)),
      batchGo cfg i (pre ++ rest) =
        ((batchGo cfg i pre).1 ++ (batchGo cfg (i + pre.length) rest).1,
         (batchGo cfg i pre).2 + (batchGo cfg (i + pre.length) rest).2) := by
  intro pre
  induction pre with
  | nil => intro i rest; simp [batchGo]
  | cons item pre ih =>
      intro i rest
      have hcons : (item :: pre) ++ rest = item :: (pre ++ rest) := rfl
      have harith : i + (item :: pre).length = i + 1 + pre.length := by
        simp [List.length_cons]
        omega
      rw [hcons, batchGo_cons, batchGo_cons cfg i item pre, harith, ih (i + 1) rest]
      cases houtput : (process_image item.1 cfg item.2).output with
      | some jpg =>
          simp only [List.cons_append, Prod.mk.injEq]
          exact ⟨trivial, by omega⟩
      | none => rfl

/-- C3: if processing an image raises any exception, `process_image`
catches it, reports one error and returns `None`; the batch loop then
writes no archive entry for that image and still processes every
preceding and following item at its original sequence position. -/
theorem error_skip_continue (cfg : Config) (env : Env) (nm : String) (e : PyErr)
    (pre post : List (Env × String)) (i : Nat)
    (hfail : processImageBody env cfg nm = Except.error e) :
    process_image env cfg nm = { output := none, warnings := 0, errors := 1 } ∧
      batchGo cfg i (pre ++ (env, nm) :: post) =
        ((batchGo cfg i pre).1 ++ (batchGo cfg (i + pre.length + 1) post).1,
         (batchGo cfg i pre).2 + (batchGo cfg (i + pre.length + 1) post).2) := by
  have hrun : process_image env cfg nm = { output := none, warnings := 0, errors := 1 } := by
    unfold process_image
    rw [hfail]
  refine ⟨hrun, ?_⟩
  rw [batchGo_append cfg pre i ((env, nm) :: post)]
  have hskip : batchGo cfg (i + pre.length) ((env, nm) :: post) =
      batchGo cfg (i + pre.length + 1) post := by
    simp only [batchGo]
    rw [show (process_image (env, nm).1 cfg (env, nm).2).output = none from by
      rw [hrun]]
  rw [hskip]

/-- Witness for `error_skip_continue`: the middle image of a three-image
batch raises on `Image.open`; the batch keeps the first and third
entries, numbered 1 and 3. -/
theorem error_skip_continue_witness :
    processImageBody envErr cfg0 ("Bob") = Except.error PyErr.generic ∧
      (process_image envErr cfg0 ("Bob") = { output := none, warnings := 0, errors := 1 } ∧
        batchGo cfg0 0 ([(envA, "Alice"), (envErr, "Bob"), (envA, "Carol")]) =
          ((batchGo cfg0 0 [(envA, "Alice")]).1 ++ (batchGo cfg0 2 [(envA, "Carol")]).1,
           (batchGo cfg0 0 [(envA, "Alice")]).2 + (batchGo cfg0 2 [(envA, "Carol")]).2)) :=
  ⟨rfl, error_skip_continue cfg0 envErr ("Bob") PyErr.generic
    [(envA, "Alice")] [(envA, "Carol")] 0 rfl⟩

/-- The batch loop's archive entries are exactly the successful items,
each named by its (1-based) two-digit sequence number. -/
theorem batchGo_entries (cfg : Config) :
    ∀ (items : List (Env × String)) (i : Nat),
      (batchGo cfg i items).1 =
        (items.enumFrom (i + 1)).filterMap (fun p =>
          ((process_image p.2.1 cfg p.2.2).output).map
            (fun jpg => (fmt2 p.1 ++ ".jpg", jpg))) := by
  intro items
  induction items with
  | nil => intro i; simp [batchGo, List.enumFrom]
  | cons item rest ih =>
      intro i
      cases houtput : (process_image item.1 cfg item.2).output with
      | some jpg =>
          simp [batchGo_cons, List.enumFrom, List.filterMap_cons, houtput, ih (i + 1)]
      | none =>
          simp [batchGo_cons, List.enumFrom, List.filterMap_cons, houtput, ih (i + 1)]

/-- C7: the output archive holds exactly one JPEG per successfully
processed image, named by its two-digit zero-padded 1-based sequence
number; in particular a two-item batch in which both images succeed
yields exactly `01.jpg` and `02.jpg` and the "2/2" status line. -/
theorem archive_naming (cfg : Config) :
    (∀ (envs : List Env) (names : List String),
       (batchProcess cfg envs names).1 =
         ((envs.zip names).enumFrom 1).filterMap (fun p =>
           ((process_image p.2.1 cfg p.2.2).output).map
             (fun jpg => (fmt2 p.1 ++ ".jpg", jpg)))) ∧
    (∀ (env₁ env₂ : Env) (n₁ n₂ : String) (j₁ j₂ : List Nat),
       (process_image env₁ cfg n₁).output = some j₁ →
       (process_image env₂ cfg n₂).output = some j₂ →
       batchProcess cfg [env₁, env₂] [n₁, n₂] =
         ([("01.jpg", j₁), ("02.jpg", j₂)], 2,
          "Processing complete! 2/2 images processed.")) := by
  constructor
  · intro envs names
    unfold batchProcess
    exact batchGo_entries cfg (envs.zip names) 0
  · intro env₁ env₂ n₁ n₂ j₁ j₂ h₁ h₂
    unfold batchProcess
    have hzip : List.zip [env₁, env₂] [n₁, n₂] = [(env₁, n₁), (env₂, n₂)] := rfl
    rw [hzip, batchGo_cons, h₁, batchGo_cons, h₂]
    have hf1 : fmt2 1 ++ (".jpg") = ("01.jpg" : String) := by decide
    have hf2 : fmt2 2 ++ (".jpg") = ("02.jpg" : String) := by decide
    have hst : ("Processing complete! " : String) ++ toString (2 : Nat) ++ ("/") ++
        toString (2 : Nat) ++ (" images processed.") =
        ("Processing complete! 2/2 images processed." : String) := by decide
    simpa [batchGo, hf1, hf2] using hst

/-- Witness for `archive_naming`: both images of a two-item batch
succeed, the archive is exactly `01.jpg`, `02.jpg` with the "2/2" status
line. -/
theorem archive_naming_witness :
    (process_image envA cfg0 ("Alice")).output = some [1, 2, 3] ∧
      (process_image envA cfg0 ("Bob")).output = some [1, 2, 3] ∧
      batchProcess cfg0 [envA, envA] [("Alice"), ("Bob")] =
        ([("01.jpg", [1, 2, 3]), ("02.jpg", [1, 2, 3])], 2,
         "Processing complete! 2/2 images processed.") :=
  ⟨rfl, rfl,
   (archive_naming cfg0).2 envA envA ("Alice") ("Bob") [1, 2, 3] [1, 2, 3] rfl rfl⟩

/-- Pasting the tile leaves the frame's dimensions unchanged. -/
theorem pasteTile_size (frame tile : PilImage) (ox oy : Nat) :
    (pasteTile frame tile ox oy).width = frame.width ∧
      (pasteTile frame tile ox oy).height = frame.height := by
  unfold pasteTile pasteMask pasteFull
  split <;> exact ⟨rfl, rfl⟩

/-- The text drawing loop leaves the canvas dimensions unchanged. -/
theorem foldl_drawStep_size (font : Font) (cfg : Config) (textY : Nat) :
    ∀ (l : List (Nat × String)) (fr : PilImage),
      (l.foldl (drawStep font cfg textY) fr).width = fr.width ∧
        (l.foldl (drawStep font cfg textY) fr).height = fr.height := by
  intro l
  induction l with
  | nil => intro fr; exact ⟨rfl, rfl⟩
  | cons p l ih =>
      intro fr
      rw [List.foldl_cons]
      exact ih (drawStep font cfg textY fr p)

/-- The pasted frame of app.py lines 108-115 has exactly the configured
frame size. -/
theorem buildFrame_size (resample : Resample) (cfg : Config) (img : PilImage)
    (face : FaceRect) :
    (buildFrame resample cfg img face).width = cfg.frameSize.1 ∧
      (buildFrame resample cfg img face).height = cfg.frameSize.2 := by
  unfold buildFrame
  exact pasteTile_size _ _ _ _

/-- C6: for any detected face and any configuration, the composited
canvas — both before and after the RGB flatten of app.py line 164 — has
width and height exactly the configured frame size, independently of the
source image, the crop, the font and the wrapped text. -/
theorem canvas_size (resample : Resample) (cfg : Config) (img : PilImage)
    (face : FaceRect) (font : Font) (wrapped : List String) :
    (drawLines (buildFrame resample cfg img face) font cfg wrapped
        (cfg.topPadding + min cfg.frameSize.1 cfg.frameSize.1 + 10)).width =
          cfg.frameSize.1 ∧
      (drawLines (buildFrame resample cfg img face) font cfg wrapped
        (cfg.topPadding + min cfg.frameSize.1 cfg.frameSize.1 + 10)).height =
          cfg.frameSize.2 ∧
      (canvasOf resample cfg img face font wrapped).width = cfg.frameSize.1 ∧
      (canvasOf resample cfg img face font wrapped).height = cfg.frameSize.2 := by
  have hb := buildFrame_size resample cfg img face
  have hd := foldl_drawStep_size font cfg
    (cfg.topPadding + min cfg.frameSize.1 cfg.frameSize.1 + 10) wrapped.enum
    (buildFrame resample cfg img face)
  unfold canvasOf convertRGB drawLines
  exact ⟨hd.1.trans hb.1, hd.2.trans hb.2, hd.1.trans hb.1, hd.2.trans hb.2⟩

/-- C8: the pipeline from the opened image, detected face, font and
wrapped lines to the composited canvas is a deterministic function of
its inputs — two runs over the same inputs agree on every pixel and on
the canvas dimensions (byte-level JPEG equality is outside the model;
the encoder is an external capability). -/
theorem canvas_deterministic (resample : Resample) (cfg : Config) (img : PilImage)
    (face : FaceRect) (font : Font) (wrapped : List String) (x y : Nat)
    (c₁ c₂ : PilImage)
    (h₁ : c₁ = canvasOf resample cfg img face font wrapped)
    (h₂ : c₂ = canvasOf resample cfg img face font wrapped) :
    c₁.px x y = c₂.px x y ∧ c₁.width = c₂.width ∧ c₁.height = c₂.height := by
  subst h₁
  subst h₂
  exact ⟨rfl, rfl, rfl⟩

/-- Witness for `canvas_deterministic` at concrete inputs. -/
theorem canvas_deterministic_witness :
    (canvasOf res0 cfg0 img0 (10, 60, 70, 20) font0 ["Al"]).px 0 0 =
        (canvasOf res0 cfg0 img0 (10, 60, 70, 20) font0 ["Al"]).px 0 0 ∧
      (canvasOf res0 cfg0 img0 (10, 60, 70, 20) font0 ["Al"]).width =
        (canvasOf res0 cfg0 img0 (10, 60, 70, 20) font0 ["Al"]).width ∧
      (canvasOf res0 cfg0 img0 (10, 60, 70, 20) font0 ["Al"]).height =
        (canvasOf res0 cfg0 img0 (10, 60, 70, 20) font0 ["Al"]).height :=
  canvas_deterministic res0 cfg0 img0 (10, 60, 70, 20) font0 (["Al"]) 0 0 _ _ rfl rfl

/-- RGBA conversion keeps the image dimensions. -/
theorem toRGBA_size (img : PilImage) :
    (toRGBA img).width = img.width ∧ (toRGBA img).height = img.height := by
  unfold toRGBA
  split <;> exact ⟨rfl, rfl⟩

/-- At mask value 0 the composite keeps the (transparent) base pixel:
the alpha of the pasted result is 0 wherever the ellipse mask is 0. -/
theorem corner_alpha_zero (img : PilImage) (s x y : Nat)
    (hxw : x < s) (hyh : y < s)
    (hsw : (toRGBA img).width = s) (hsh : (toRGBA img).height = s)
    (hmask : ellipseAlpha s x y = 0) :
    ((pasteMask (imageNew s s PMode.RGBA (0, 0, 0, 0)) (toRGBA img) 0 0
        (ellipseAlpha s)).px x y).2.2.2 = 0 := by
  simp [pasteMask, imageNew, hsw, hsh, hxw, hyh, hmask, blendPx, mix]

/-- For a tile side of at least 4, the ellipse mask is fully off at the
four corner pixels. -/
theorem ellipse_corners (s : Nat) (hs : 4 ≤ s) :
    ellipseAlpha s 0 0 = 0 ∧ ellipseAlpha s (s - 1) 0 = 0 ∧
      ellipseAlpha s 0 (s - 1) = 0 ∧ ellipseAlpha s (s - 1) (s - 1) = 0 := by
  have ha : (4 : Int) ≤ (s : Int) := by exact_mod_cast hs
  have hc : ((s - 1 : Nat) : Int) = (s : Int) - 1 := by omega
  refine ⟨?_, ?_, ?_, ?_⟩ <;>
    · unfold ellipseAlpha
      split
      · exfalso
        rename_i h
        try rw [hc] at h
        push_cast at h
        nlinarith [sq_nonneg ((s : Int) - 4)]
      · rfl

/-- C5: for a tile of side `s` (at least 4, the sliders guarantee 50 or
more), a border radius of at least `s / 2` (integer halving) yields the
inscribed-ellipse alpha mask, with all four corner pixels fully
transparent after the paste; a radius strictly between 0 and `s / 2`
yields the rounded-rectangle mask with that corner radius; radius 0
applies no mask and leaves the tile untouched. -/
theorem border_radius_mask (img : PilImage) (s r : Nat) (hs : 4 ≤ s)
    (hw : img.width = s) (hh : img.height = s) :
    (s / 2 ≤ r →
       applyBorderRadius img s r =
           pasteMask (imageNew s s PMode.RGBA (0, 0, 0, 0)) (toRGBA img) 0 0
             (ellipseAlpha s) ∧
         ((applyBorderRadius img s r).px 0 0).2.2.2 = 0 ∧
         ((applyBorderRadius img s r).px (s - 1) 0).2.2.2 = 0 ∧
         ((applyBorderRadius img s r).px 0 (s - 1)).2.2.2 = 0 ∧
         ((applyBorderRadius img s r).px (s - 1) (s - 1)).2.2.2 = 0) ∧
    (0 < r → r < s / 2 →
       applyBorderRadius img s r =
         pasteMask (imageNew s s PMode.RGBA (0, 0, 0, 0)) (toRGBA img) 0 0
           (roundedAlpha s r)) ∧
    (r = 0 → applyBorderRadius img s r = img) := by
  have hsw : (toRGBA img).width = s := (toRGBA_size img).1.trans hw
  have hsh : (toRGBA img).height = s := (toRGBA_size img).2.trans hh
  refine ⟨?_, ?_, ?_⟩
  · intro hr2
    have hr : 0 < r := by omega
    have heq : applyBorderRadius img s r =
        pasteMask (imageNew s s PMode.RGBA (0, 0, 0, 0)) (toRGBA img) 0 0
          (ellipseAlpha s) := by
      unfold applyBorderRadius maskAlpha
      rw [if_pos hr, if_pos hr2, hw, hh]
    have hcorners := ellipse_corners s hs
    refine ⟨heq, ?_, ?_, ?_, ?_⟩ <;> rw [heq]
    · exact corner_alpha_zero img s 0 0 (by omega) (by omega) hsw hsh hcorners.1
    · exact corner_alpha_zero img s (s - 1) 0 (by omega) (by omega) hsw hsh hcorners.2.1
    · exact corner_alpha_zero img s 0 (s - 1) (by omega) (by omega) hsw hsh hcorners.2.2.1
    · exact corner_alpha_zero img s (s - 1) (s - 1) (by omega) (by omega) hsw hsh
        hcorners.2.2.2
  · intro hr hlt
    unfold applyBorderRadius maskAlpha
    rw [if_pos hr, if_neg (by omega : ¬ s / 2 ≤ r), hw, hh]
  · intro h0
    unfold applyBorderRadius
    rw [h0]
    simp

/-- Witness for `border_radius_mask` at an 8-by-8 tile with radius 4
(the full-circle case). -/
theorem border_radius_mask_witness :
    4 ≤ 8 ∧ img1.width = 8 ∧ img1.height = 8 ∧
      ((8 / 2 ≤ 4 →
          applyBorderRadius img1 8 4 =
              pasteMask (imageNew 8 8 PMode.RGBA (0, 0, 0, 0)) (toRGBA img1) 0 0
                (ellipseAlpha 8) ∧
            ((applyBorderRadius img1 8 4).px 0 0).2.2.2 = 0 ∧
            ((applyBorderRadius img1 8 4).px (8 - 1) 0).2.2.2 = 0 ∧
            ((applyBorderRadius img1 8 4).px 0 (8 - 1)).2.2.2 = 0 ∧
            ((applyBorderRadius img1 8 4).px (8 - 1) (8 - 1)).2.2.2 = 0) ∧
        (0 < 4 → 4 < 8 / 2 →
          applyBorderRadius img1 8 4 =
            pasteMask (imageNew 8 8 PMode.RGBA (0, 0, 0, 0)) (toRGBA img1) 0 0
              (roundedAlpha 8 4)) ∧
        ((4 : Nat) = 0 → applyBorderRadius img1 8 4 = img1)) :=
  ⟨by decide, rfl, rfl, border_radius_mask img1 8 4 (by decide) rfl rfl⟩
